import Mathlib

set_option maxRecDepth 8000
set_option maxHeartbeats 1600000

namespace Ansirs

/-! Shallow embedding of the `ansirs` crate's core (src/colors.rs and
src/styled/mod.rs): the RGB `Color` type with hexadecimal parsing and
formatting, the closed named-color palette `Colors` with its successor
function and iterator, and the `style_text` rendering function.
Rust strings are modelled as `List Char`; `str::len` (UTF-8 byte count)
is modelled by `utf8Len`. Machine `u8` values are modelled as `Nat`
(the parser bounds them by 255 exactly as `u8::from_str_radix` does). -/

/-- Kind of a Rust `std::num::ParseIntError`, as produced by
`u8::from_str_radix` (only these kinds are reachable for `u8`). -/
inductive ParseIntErrorKind where
| empty : ParseIntErrorKind
| invalidDigit : ParseIntErrorKind
| posOverflow : ParseIntErrorKind
deriving DecidableEq, Repr

/-- `ColorParseError` from colors.rs. -/
inductive ColorParseError where
| BadChars : ColorParseError
| WrongLength : ColorParseError
| ParseIntError : ParseIntErrorKind → ColorParseError
| Unknown : String → ColorParseError
deriving DecidableEq, Repr

/-- `Color(u8, u8, u8)` from colors.rs. Channels are `Nat`s; every
constructor used by the embedded code produces values below 256. -/
structure Color where
  r : Nat
  g : Nat
  b : Nat
deriving DecidableEq, Repr

/-- `Color::from_rgb`. -/
def Color.from_rgb (r g b : Nat) : Color := ⟨r, g, b⟩

/-- UTF-8 byte size of one scalar value (what Rust's `str::len` adds up). -/
def charSize (c : Char) : Nat :=
  if c.toNat < 0x80 then 1
  else if c.toNat < 0x800 then 2
  else if c.toNat < 0x10000 then 3
  else 4

/-- Rust `str::len`: total UTF-8 byte length. -/
def utf8Len (cs : List Char) : Nat := (cs.map charSize).sum

/-- Rust `char::to_digit(16)`. -/
def charToDigit16 (c : Char) : Option Nat :=
  if 48 ≤ c.toNat ∧ c.toNat ≤ 57 then some (c.toNat - 48)
  else if 97 ≤ c.toNat ∧ c.toNat ≤ 102 then some (c.toNat - 97 + 10)
  else if 65 ≤ c.toNat ∧ c.toNat ≤ 70 then some (c.toNat - 65 + 10)
  else none

/-- Digit-accumulation loop of `u8::from_str_radix` (radix 16): each step
multiplies by 16 and adds the digit, failing with `posOverflow` when the
value would exceed `u8::MAX`. -/
def radixGo : List Char → Nat → Except ParseIntErrorKind Nat
| [], acc => .ok acc
| c :: rest, acc =>
  match charToDigit16 c with
  | none => .error .invalidDigit
  | some d =>
    if 16 * acc + d ≤ 255 then radixGo rest (16 * acc + d)
    else .error .posOverflow

/-- `u8::from_str_radix(s, 16)`: empty input is `Empty`; a leading `'+'` is
stripped (`'+'` alone is `InvalidDigit`; `'-'` is not a sign for `u8` and
fails as a digit); then digits accumulate via `radixGo`. -/
def fromStrRadixU8 (cs : List Char) : Except ParseIntErrorKind Nat :=
  match cs with
  | [] => .error .empty
  | c :: rest =>
    if c = '+' then
      if rest = [] then .error .invalidDigit else radixGo rest 0
    else radixGo (c :: rest) 0

/-- The local `convert` helper inside `Color::from_hex`:
`u8::from_str_radix(input, 16).map_err(ColorParseError::ParseIntError)`. -/
def convert (cs : List Char) : Except ColorParseError Nat :=
  match fromStrRadixU8 cs with
  | .ok v => .ok v
  | .error k => .error (.ParseIntError k)

/-- The `#`-stripping at the top of `Color::from_hex`: if the string starts
with `'#'` the first byte (one byte, since `'#'` is ASCII) is dropped. -/
def stripHash (cs : List Char) : List Char :=
  match cs with
  | [] => []
  | c :: rest => if c = '#' then rest else c :: rest

/-- One turn of the `for idx in &mut rgb` loop body of `Color::from_hex`:
in 6-digit mode take two chars (each missing char is
`Unknown("Unexpected end of string!")`) and convert the pair; in 3-digit
mode take one char and convert it duplicated. Returns the channel value
and the remaining chars. -/
def readChannel (isDouble : Bool) (cs : List Char) :
    Except ColorParseError (Nat × List Char) :=
  if isDouble then
    match cs with
    | [] => .error (.Unknown "Unexpected end of string!")
    | [_] => .error (.Unknown "Unexpected end of string!")
    | f :: s :: rest =>
      match convert [f, s] with
      | .error e => .error e
      | .ok v => .ok (v, rest)
  else
    match cs with
    | [] => .error (.Unknown "Unexpected end of string!")
    | c :: rest =>
      match convert [c, c] with
      | .error e => .error e
      | .ok v => .ok (v, rest)

/-- `Color::from_hex` from colors.rs: strip an optional leading `'#'`,
reject byte lengths other than 3 and 6 with `WrongLength`, then read the
three channels in sequence (`is_double` iff byte length 6). -/
def from_hex (input : List Char) : Except ColorParseError Color :=
  if utf8Len (stripHash input) = 3 ∨ utf8Len (stripHash input) = 6 then
    match readChannel (decide (utf8Len (stripHash input) = 6)) (stripHash input) with
    | .error e => .error e
    | .ok (r, cs1) =>
      match readChannel (decide (utf8Len (stripHash input) = 6)) cs1 with
      | .error e => .error e
      | .ok (g, cs2) =>
        match readChannel (decide (utf8Len (stripHash input) = 6)) cs2 with
        | .error e => .error e
        | .ok (b, _) => .ok ⟨r, g, b⟩
  else .error .WrongLength

/-- Lowercase hexadecimal digit character for a value below 16
(what `{:02x}` prints per digit). -/
def hexChar (n : Nat) : Char :=
  if n < 10 then Char.ofNat (48 + n) else Char.ofNat (97 + (n - 10))

/-- `{:02x}` formatting of one byte: two lowercase hex digits. -/
def byteHex (n : Nat) : List Char := [hexChar (n / 16), hexChar (n % 16)]

/-- `Color::as_hex` from colors.rs: `format!("#\x7b:02x\x7d...", r, g, b)`. -/
def as_hex (c : Color) : List Char :=
  '#' :: (byteHex c.r ++ byteHex c.g ++ byteHex c.b)

/-- ASCII lowercasing of one character (Rust `char::to_lowercase` restricted
to ASCII, which is all the hex digits need). -/
def lowerHex (c : Char) : Char :=
  if 65 ≤ c.toNat ∧ c.toNat ≤ 90 then Char.ofNat (c.toNat + 32) else c

/-- The closed palette enum `Colors` from colors.rs (144 variants, source order). -/
inductive Colors where
| Maroon : Colors
| DarkRed : Colors
| Brown : Colors
| Firebrick : Colors
| Crimson : Colors
| Red : Colors
| Tomato : Colors
| Coral : Colors
| IndianRed : Colors
| LightCoral : Colors
| DarkSalmon : Colors
| Salmon : Colors
| LightSalmon : Colors
| OrangeRed : Colors
| DarkOrange : Colors
| Orange : Colors
| Gold : Colors
| DarkGoldenRod : Colors
| GoldenRod : Colors
| PaleGoldenRod : Colors
| DarkKhaki : Colors
| Khaki : Colors
| Olive : Colors
| Yellow : Colors
| YellowGreen : Colors
| DarkOliveGreen : Colors
| OliveDrab : Colors
| LawnGreen : Colors
| Chartreuse : Colors
| GreenYellow : Colors
| DarkGreen : Colors
| Green : Colors
| ForestGreen : Colors
| Lime : Colors
| LimeGreen : Colors
| LightGreen : Colors
| PaleGreen : Colors
| DarkSeaGreen : Colors
| MediumSpringGreen : Colors
| SpringGreen : Colors
| SeaGreen : Colors
| MediumAquaMarine : Colors
| MediumSeaGreen : Colors
| LightSeaGreen : Colors
| DarkSlateGray : Colors
| Teal : Colors
| DarkCyan : Colors
| Aqua : Colors
| Cyan : Colors
| LightCyan : Colors
| DarkTurquoise : Colors
| Turquoise : Colors
| MediumTurquoise : Colors
| PaleTurquoise : Colors
| AquaMarine : Colors
| PowderBlue : Colors
| CadetBlue : Colors
| SteelBlue : Colors
| CornFlowerBlue : Colors
| DeepSkyBlue : Colors
| DodgerBlue : Colors
| LightBlue : Colors
| SkyBlue : Colors
| LightSkyBlue : Colors
| MidnightBlue : Colors
| Navy : Colors
| DarkBlue : Colors
| MediumBlue : Colors
| Blue : Colors
| RoyalBlue : Colors
| BlueViolet : Colors
| Indigo : Colors
| DarkSlateBlue : Colors
| SlateBlue : Colors
| MediumSlateBlue : Colors
| MediumPurple : Colors
| DarkMagenta : Colors
| DarkViolet : Colors
| DarkOrchid : Colors
| MediumOrchid : Colors
| Purple : Colors
| Thistle : Colors
| Plum : Colors
| Violet : Colors
| Magenta : Colors
| Fuschia : Colors
| Orchid : Colors
| MediumVioletRed : Colors
| PaleVioletRed : Colors
| DeepPink : Colors
| HotPink : Colors
| LightPink : Colors
| Pink : Colors
| AntiqueWhite : Colors
| Beige : Colors
| Bisque : Colors
| BlanchedAlmond : Colors
| Wheat : Colors
| CornSilk : Colors
| LemonChiffon : Colors
| LightGoldenRodYellow : Colors
| LightYellow : Colors
| SaddleBrown : Colors
| Sienna : Colors
| Chocolate : Colors
| Peru : Colors
| SandyBrown : Colors
| BurlyWood : Colors
| Tan : Colors
| RosyBrown : Colors
| Moccasin : Colors
| NavajoWhite : Colors
| PeachPuff : Colors
| MistyRose : Colors
| LavenderBlush : Colors
| Linen : Colors
| OldLace : Colors
| PapayaWhip : Colors
| SeaShell : Colors
| MintCream : Colors
| SlateGray : Colors
| LightSlateGray : Colors
| LightSteelBlue : Colors
| Lavender : Colors
| FloralWhite : Colors
| AliceBlue : Colors
| GhostWhite : Colors
| Honeydew : Colors
| Ivory : Colors
| Azure : Colors
| Snow : Colors
| Black : Colors
| DimGray : Colors
| DimGrey : Colors
| Gray : Colors
| Grey : Colors
| DarkGray : Colors
| DarkGrey : Colors
| Silver : Colors
| LightGray : Colors
| LightGrey : Colors
| Gainsboro : Colors
| WhiteSmoke : Colors
| White : Colors
deriving DecidableEq, Fintype, Repr

/-- `Colors::next` from colors.rs: hand-written successor over the palette. -/
def Colors.next : Colors → Colors
| .AliceBlue => .AntiqueWhite
| .AntiqueWhite => .Aqua
| .Aqua => .AquaMarine
| .AquaMarine => .Azure
| .Azure => .Beige
| .Beige => .Bisque
| .Bisque => .Black
| .Black => .BlanchedAlmond
| .BlanchedAlmond => .Blue
| .Blue => .BlueViolet
| .BlueViolet => .Brown
| .Brown => .BurlyWood
| .BurlyWood => .CadetBlue
| .CadetBlue => .Chartreuse
| .Chartreuse => .Chocolate
| .Chocolate => .Coral
| .Coral => .CornFlowerBlue
| .CornFlowerBlue => .CornSilk
| .CornSilk => .Crimson
| .Crimson => .Cyan
| .Cyan => .DarkBlue
| .DarkBlue => .DarkCyan
| .DarkCyan => .DarkGoldenRod
| .DarkGoldenRod => .DarkGray
| .DarkGray => .DarkGreen
| .DarkGreen => .DarkGrey
| .DarkGrey => .DarkKhaki
| .DarkKhaki => .DarkMagenta
| .DarkMagenta => .DarkOliveGreen
| .DarkOliveGreen => .DarkOrange
| .DarkOrange => .DarkOrchid
| .DarkOrchid => .DarkRed
| .DarkRed => .DarkSalmon
| .DarkSalmon => .DarkSeaGreen
| .DarkSeaGreen => .DarkSlateBlue
| .DarkSlateBlue => .DarkSlateGray
| .DarkSlateGray => .DarkTurquoise
| .DarkTurquoise => .DarkViolet
| .DarkViolet => .DeepPink
| .DeepPink => .DeepSkyBlue
| .DeepSkyBlue => .DimGray
| .DimGray => .DimGrey
| .DimGrey => .DodgerBlue
| .DodgerBlue => .Firebrick
| .Firebrick => .FloralWhite
| .FloralWhite => .ForestGreen
| .ForestGreen => .Fuschia
| .Fuschia => .Gainsboro
| .Gainsboro => .GhostWhite
| .GhostWhite => .Gold
| .Gold => .GoldenRod
| .GoldenRod => .Gray
| .Gray => .Green
| .Green => .GreenYellow
| .GreenYellow => .Grey
| .Grey => .Honeydew
| .Honeydew => .HotPink
| .HotPink => .IndianRed
| .IndianRed => .Indigo
| .Indigo => .Ivory
| .Ivory => .Khaki
| .Khaki => .Lavender
| .Lavender => .LavenderBlush
| .LavenderBlush => .LawnGreen
| .LawnGreen => .LemonChiffon
| .LemonChiffon => .LightBlue
| .LightBlue => .LightCoral
| .LightCoral => .LightCyan
| .LightCyan => .LightGoldenRodYellow
| .LightGoldenRodYellow => .LightGray
| .LightGray => .LightGreen
| .LightGreen => .LightGrey
| .LightGrey => .LightPink
| .LightPink => .LightSalmon
| .LightSalmon => .LightSeaGreen
| .LightSeaGreen => .LightSkyBlue
| .LightSkyBlue => .LightSlateGray
| .LightSlateGray => .LightSteelBlue
| .LightSteelBlue => .LightYellow
| .LightYellow => .Lime
| .Lime => .LimeGreen
| .LimeGreen => .Linen
| .Linen => .Magenta
| .Magenta => .Maroon
| .Maroon => .MediumAquaMarine
| .MediumAquaMarine => .MediumBlue
| .MediumBlue => .MediumOrchid
| .MediumOrchid => .MediumPurple
| .MediumPurple => .MediumSeaGreen
| .MediumSeaGreen => .MediumSlateBlue
| .MediumSlateBlue => .MediumSpringGreen
| .MediumSpringGreen => .MediumTurquoise
| .MediumTurquoise => .MediumVioletRed
| .MediumVioletRed => .MidnightBlue
| .MidnightBlue => .MintCream
| .MintCream => .MistyRose
| .MistyRose => .Moccasin
| .Moccasin => .NavajoWhite
| .NavajoWhite => .Navy
| .Navy => .OldLace
| .OldLace => .Olive
| .Olive => .OliveDrab
| .OliveDrab => .Orange
| .Orange => .OrangeRed
| .OrangeRed => .Orchid
| .Orchid => .PaleGoldenRod
| .PaleGoldenRod => .PaleGreen
| .PaleGreen => .PaleTurquoise
| .PaleTurquoise => .PaleVioletRed
| .PaleVioletRed => .PapayaWhip
| .PapayaWhip => .PeachPuff
| .PeachPuff => .Peru
| .Peru => .Pink
| .Pink => .Plum
| .Plum => .PowderBlue
| .PowderBlue => .Purple
| .Purple => .Red
| .Red => .RosyBrown
| .RosyBrown => .RoyalBlue
| .RoyalBlue => .SaddleBrown
| .SaddleBrown => .Salmon
| .Salmon => .SandyBrown
| .SandyBrown => .SeaGreen
| .SeaGreen => .SeaShell
| .SeaShell => .Sienna
| .Sienna => .Silver
| .Silver => .SkyBlue
| .SkyBlue => .SlateBlue
| .SlateBlue => .SlateGray
| .SlateGray => .Snow
| .Snow => .SpringGreen
| .SpringGreen => .SteelBlue
| .SteelBlue => .Tan
| .Tan => .Teal
| .Teal => .Thistle
| .Thistle => .Tomato
| .Tomato => .Turquoise
| .Turquoise => .Violet
| .Violet => .Wheat
| .Wheat => .White
| .White => .WhiteSmoke
| .WhiteSmoke => .Yellow
| .Yellow => .YellowGreen
| .YellowGreen => .AliceBlue

/-- The order in which `Colors::next` walks the palette, starting at `AliceBlue`
(the match arms of `next`, which are alphabetically sorted in the source). -/
def alphaList : List Colors :=
[.AliceBlue, .AntiqueWhite, .Aqua, .AquaMarine, .Azure, .Beige, .Bisque, .Black, .BlanchedAlmond, .Blue, .BlueViolet, .Brown, .BurlyWood, .CadetBlue, .Chartreuse, .Chocolate, .Coral, .CornFlowerBlue, .CornSilk, .Crimson, .Cyan, .DarkBlue, .DarkCyan, .DarkGoldenRod] ++
[.DarkGray, .DarkGreen, .DarkGrey, .DarkKhaki, .DarkMagenta, .DarkOliveGreen, .DarkOrange, .DarkOrchid, .DarkRed, .DarkSalmon, .DarkSeaGreen, .DarkSlateBlue, .DarkSlateGray, .DarkTurquoise, .DarkViolet, .DeepPink, .DeepSkyBlue, .DimGray, .DimGrey, .DodgerBlue, .Firebrick, .FloralWhite, .ForestGreen, .Fuschia] ++
[.Gainsboro, .GhostWhite, .Gold, .GoldenRod, .Gray, .Green, .GreenYellow, .Grey, .Honeydew, .HotPink, .IndianRed, .Indigo, .Ivory, .Khaki, .Lavender, .LavenderBlush, .LawnGreen, .LemonChiffon, .LightBlue, .LightCoral, .LightCyan, .LightGoldenRodYellow, .LightGray, .LightGreen] ++
[.LightGrey, .LightPink, .LightSalmon, .LightSeaGreen, .LightSkyBlue, .LightSlateGray, .LightSteelBlue, .LightYellow, .Lime, .LimeGreen, .Linen, .Magenta, .Maroon, .MediumAquaMarine, .MediumBlue, .MediumOrchid, .MediumPurple, .MediumSeaGreen, .MediumSlateBlue, .MediumSpringGreen, .MediumTurquoise, .MediumVioletRed, .MidnightBlue, .MintCream] ++
[.MistyRose, .Moccasin, .NavajoWhite, .Navy, .OldLace, .Olive, .OliveDrab, .Orange, .OrangeRed, .Orchid, .PaleGoldenRod, .PaleGreen, .PaleTurquoise, .PaleVioletRed, .PapayaWhip, .PeachPuff, .Peru, .Pink, .Plum, .PowderBlue, .Purple, .Red, .RosyBrown, .RoyalBlue] ++
[.SaddleBrown, .Salmon, .SandyBrown, .SeaGreen, .SeaShell, .Sienna, .Silver, .SkyBlue, .SlateBlue, .SlateGray, .Snow, .SpringGreen, .SteelBlue, .Tan, .Teal, .Thistle, .Tomato, .Turquoise, .Violet, .Wheat, .White, .WhiteSmoke, .Yellow, .YellowGreen]

/-- Position of a palette entry in the `next`-walk order `alphaList`. -/
def Colors.toIdx : Colors → Nat
| .AliceBlue => 0
| .AntiqueWhite => 1
| .Aqua => 2
| .AquaMarine => 3
| .Azure => 4
| .Beige => 5
| .Bisque => 6
| .Black => 7
| .BlanchedAlmond => 8
| .Blue => 9
| .BlueViolet => 10
| .Brown => 11
| .BurlyWood => 12
| .CadetBlue => 13
| .Chartreuse => 14
| .Chocolate => 15
| .Coral => 16
| .CornFlowerBlue => 17
| .CornSilk => 18
| .Crimson => 19
| .Cyan => 20
| .DarkBlue => 21
| .DarkCyan => 22
| .DarkGoldenRod => 23
| .DarkGray => 24
| .DarkGreen => 25
| .DarkGrey => 26
| .DarkKhaki => 27
| .DarkMagenta => 28
| .DarkOliveGreen => 29
| .DarkOrange => 30
| .DarkOrchid => 31
| .DarkRed => 32
| .DarkSalmon => 33
| .DarkSeaGreen => 34
| .DarkSlateBlue => 35
| .DarkSlateGray => 36
| .DarkTurquoise => 37
| .DarkViolet => 38
| .DeepPink => 39
| .DeepSkyBlue => 40
| .DimGray => 41
| .DimGrey => 42
| .DodgerBlue => 43
| .Firebrick => 44
| .FloralWhite => 45
| .ForestGreen => 46
| .Fuschia => 47
| .Gainsboro => 48
| .GhostWhite => 49
| .Gold => 50
| .GoldenRod => 51
| .Gray => 52
| .Green => 53
| .GreenYellow => 54
| .Grey => 55
| .Honeydew => 56
| .HotPink => 57
| .IndianRed => 58
| .Indigo => 59
| .Ivory => 60
| .Khaki => 61
| .Lavender => 62
| .LavenderBlush => 63
| .LawnGreen => 64
| .LemonChiffon => 65
| .LightBlue => 66
| .LightCoral => 67
| .LightCyan => 68
| .LightGoldenRodYellow => 69
| .LightGray => 70
| .LightGreen => 71
| .LightGrey => 72
| .LightPink => 73
| .LightSalmon => 74
| .LightSeaGreen => 75
| .LightSkyBlue => 76
| .LightSlateGray => 77
| .LightSteelBlue => 78
| .LightYellow => 79
| .Lime => 80
| .LimeGreen => 81
| .Linen => 82
| .Magenta => 83
| .Maroon => 84
| .MediumAquaMarine => 85
| .MediumBlue => 86
| .MediumOrchid => 87
| .MediumPurple => 88
| .MediumSeaGreen => 89
| .MediumSlateBlue => 90
| .MediumSpringGreen => 91
| .MediumTurquoise => 92
| .MediumVioletRed => 93
| .MidnightBlue => 94
| .MintCream => 95
| .MistyRose => 96
| .Moccasin => 97
| .NavajoWhite => 98
| .Navy => 99
| .OldLace => 100
| .Olive => 101
| .OliveDrab => 102
| .Orange => 103
| .OrangeRed => 104
| .Orchid => 105
| .PaleGoldenRod => 106
| .PaleGreen => 107
| .PaleTurquoise => 108
| .PaleVioletRed => 109
| .PapayaWhip => 110
| .PeachPuff => 111
| .Peru => 112
| .Pink => 113
| .Plum => 114
| .PowderBlue => 115
| .Purple => 116
| .Red => 117
| .RosyBrown => 118
| .RoyalBlue => 119
| .SaddleBrown => 120
| .Salmon => 121
| .SandyBrown => 122
| .SeaGreen => 123
| .SeaShell => 124
| .Sienna => 125
| .Silver => 126
| .SkyBlue => 127
| .SlateBlue => 128
| .SlateGray => 129
| .Snow => 130
| .SpringGreen => 131
| .SteelBlue => 132
| .Tan => 133
| .Teal => 134
| .Thistle => 135
| .Tomato => 136
| .Turquoise => 137
| .Violet => 138
| .Wheat => 139
| .White => 140
| .WhiteSmoke => 141
| .Yellow => 142
| .YellowGreen => 143

/-- Entry of `alphaList` at a given position (defaulting to `AliceBlue`). -/
def ofIdx (i : Nat) : Colors := alphaList.getD i Colors.AliceBlue

/-- `iter::ColorsIter` from colors.rs: the palette iterator state. -/
structure ColorsIter where
  current : Option Colors

/-- `ColorsIter::FIRST`. -/
def ColorsIter.FIRST : Colors := Colors.AliceBlue

/-- `ColorsIter::starting_with`. -/
def ColorsIter.starting_with (c : Colors) : ColorsIter := ⟨some c⟩

/-- One call of `<ColorsIter as Iterator>::next`: emit the current entry and
advance to its successor, or to `none` when the successor is `FIRST`. -/
def ColorsIter.step (it : ColorsIter) : Option Colors × ColorsIter :=
  (it.current,
   ⟨it.current.bind fun c =>
      if Colors.next c = ColorsIter.FIRST then none else some (Colors.next c)⟩)

/-- Collect up to `n` items from the iterator (the items the Rust iterator
yields, which stabilize once the state reaches `none`). -/
def ColorsIter.collect : ColorsIter → Nat → List Colors
| _, 0 => []
| it, n + 1 =>
  match it.step with
  | (none, _) => []
  | (some c, it2) => c :: it2.collect n

/-- The full finite sequence produced by `ColorsIter::starting_with c`
(fuel 144 suffices: the walk reaches `YellowGreen` in under 144 steps). -/
def iterSeq (c : Colors) : List Colors :=
  (ColorsIter.starting_with c).collect 144

/-- Modelled from the spec: the attribute flag set of a style descriptor
(`AnsiFlags` is declared outside src/): booleans for bold, italic,
underline and strike. -/
structure AnsiFlags where
  bold : Bool
  italic : Bool
  underline : Bool
  strike : Bool
deriving DecidableEq, Repr

/-- `AnsiFlags::empty()`. -/
def AnsiFlags.empty : AnsiFlags := ⟨false, false, false, false⟩

/-- The style descriptor `Ansi` (field shape as constructed in colors.rs:
optional foreground, optional background, flag set). -/
structure Ansi where
  fg : Option Color
  bg : Option Color
  flags : AnsiFlags
deriving DecidableEq, Repr

/-- Modelled from the spec: `Ansi::is_default` (declared outside src/) —
true iff foreground and background are absent and the flag set is empty. -/
def Ansi.is_default (a : Ansi) : Bool :=
  a.fg.isNone && a.bg.isNone && decide (a.flags = AnsiFlags.empty)

/-- Decimal digits of a natural number, as characters. -/
def natChars (n : Nat) : List Char := Nat.toDigits 10 n

/-- SGR truecolor parameter group: `intro;2;R;G;B`. -/
def colorParams (intro : Nat) (c : Color) : List (List Char) :=
  [natChars intro, natChars 2, natChars c.r, natChars c.g, natChars c.b]

/-- Modelled from the spec: the SGR parameter list of a descriptor
(serialization is declared outside src/) — attribute codes in ascending
order (bold 1, italic 3, underline 4, strike 9), then the foreground as
`38;2;R;G;B`, then the background as `48;2;R;G;B`. -/
def Ansi.params (a : Ansi) : List (List Char) :=
  (if a.flags.bold then [natChars 1] else []) ++
  (if a.flags.italic then [natChars 3] else []) ++
  (if a.flags.underline then [natChars 4] else []) ++
  (if a.flags.strike then [natChars 9] else []) ++
  (match a.fg with | some c => colorParams 38 c | none => []) ++
  (match a.bg with | some c => colorParams 48 c | none => [])

/-- The ASCII escape control character 0x1B. -/
def escChar : Char := Char.ofNat 27

/-- Modelled from the spec: the `Display` serialization of a descriptor
(declared outside src/) — `ESC [ <params joined by semicolons> m`. -/
def Ansi.display (a : Ansi) : List Char :=
  escChar :: '[' :: (List.intercalate [';'] a.params ++ ['m'])

/-- Modelled from the spec: `Ansi::reset()` (declared outside src/) —
the fixed literal `ESC [ 0 m`. -/
def Ansi.reset : List Char := [escChar, '[', '0', 'm']

/-- `style_text` from styled/mod.rs, with the displayable text already in
its string form and the style source already converted to its descriptor
(Rust converts the style with `into_ansi()` exactly once, in the non-empty
branch): empty text is returned unchanged; a default descriptor returns
the text unchanged; otherwise the descriptor's escape sequence, the text,
and the reset escape are concatenated. -/
def style_text (text : List Char) (style : Ansi) : List Char :=
  if text = [] then text
  else if style.is_default then text
  else (Ansi.display style ++ text) ++ Ansi.reset


theorem alphaList_length : alphaList.length = 144 := by decide

theorem toIdx_lt : ∀ c : Colors, c.toIdx < 144 := by decide

theorem ofIdx_toIdx : ∀ c : Colors, ofIdx c.toIdx = c := by decide

theorem toIdx_ofIdx : ∀ i : Fin 144, Colors.toIdx (ofIdx i.val) = i.val := by decide

theorem next_eq_ofIdx : ∀ c : Colors, Colors.next c = ofIdx ((c.toIdx + 1) % 144) := by
  decide

theorem toIdx_ofIdx_nat (i : Nat) (h : i < 144) : Colors.toIdx (ofIdx i) = i :=
  toIdx_ofIdx ⟨i, h⟩

theorem toIdx_next (c : Colors) : (Colors.next c).toIdx = (c.toIdx + 1) % 144 := by
  rw [next_eq_ofIdx]
  exact toIdx_ofIdx ⟨(c.toIdx + 1) % 144, Nat.mod_lt _ (by norm_num)⟩

theorem iterate_next (k : Nat) :
    ∀ c : Colors, Colors.next^[k] c = ofIdx ((c.toIdx + k) % 144) := by
  induction k with
  | zero =>
    intro c
    simp [Nat.mod_eq_of_lt (toIdx_lt c), ofIdx_toIdx c]
  | succ k ih =>
    intro c
    rw [Function.iterate_succ_apply, ih (Colors.next c), toIdx_next]
    congr 1
    omega

theorem ofIdx_getElem (i : Nat) (h : i < alphaList.length) :
    ofIdx i = alphaList.get ⟨i, h⟩ := by
  simp [ofIdx, List.getD_eq_getElem, h]

theorem drop_toIdx (c : Colors) :
    alphaList.drop c.toIdx = c :: alphaList.drop (c.toIdx + 1) := by
  have h : c.toIdx < alphaList.length := by
    rw [alphaList_length]; exact toIdx_lt c
  rw [List.drop_eq_getElem_cons h]
  have hc : alphaList[c.toIdx] = c := by
    have := ofIdx_toIdx c
    rw [ofIdx_getElem _ h] at this
    simpa using this
  rw [hc]

theorem collect_none (n : Nat) : ColorsIter.collect ⟨none⟩ n = [] := by
  cases n <;> rfl

theorem collect_some (c : Colors) (n : Nat) :
    ColorsIter.collect ⟨some c⟩ (n + 1) =
      c :: ColorsIter.collect
        ⟨if Colors.next c = ColorsIter.FIRST then none else some (Colors.next c)⟩ n := rfl

theorem collect_eq_drop : ∀ (n : Nat) (c : Colors), 144 - c.toIdx ≤ n →
    ColorsIter.collect ⟨some c⟩ n = alphaList.drop c.toIdx := by
  intro n
  induction n with
  | zero =>
    intro c h
    have := toIdx_lt c
    omega
  | succ n ih =>
    intro c h
    rw [collect_some]
    by_cases hn : Colors.next c = ColorsIter.FIRST
    · rw [if_pos hn, collect_none]
      have h143 : c.toIdx = 143 := by
        have h0 := congrArg Colors.toIdx hn
        rw [toIdx_next] at h0
        have hF : Colors.toIdx ColorsIter.FIRST = 0 := rfl
        rw [hF] at h0
        have := toIdx_lt c
        omega
      rw [drop_toIdx c, h143]
      rw [show (143 + 1 : Nat) = 144 from rfl]
      rw [List.drop_eq_nil_of_le (by rw [alphaList_length])]
    · rw [if_neg hn]
      have h143 : c.toIdx ≠ 143 := by
        intro h143
        apply hn
        rw [next_eq_ofIdx, h143]
        rfl
      have hts : (Colors.next c).toIdx = c.toIdx + 1 := by
        rw [toIdx_next]
        have := toIdx_lt c
        omega
      rw [ih (Colors.next c) (by rw [hts]; omega)]
      rw [hts]
      exact (drop_toIdx c).symm


/-- C2 counterexample: applying `Colors::next` 150 times to `AliceBlue` does
not return to `AliceBlue` (it lands on `Bisque`: the palette has 144
entries, and 150 is not a multiple of 144). -/
theorem next_150_aliceblue_ne : (Colors.next^[150] Colors.AliceBlue = Colors.AliceBlue) = False :=
  eq_false (by decide)

/-- C2 (amended): applying `Colors::next` 144 times — the actual number of
palette entries — from any entry returns that entry. -/
theorem next_iterate_144 : ∀ c : Colors, Colors.next^[144] c = c := by
  intro c
  rw [iterate_next]
  have hlt := toIdx_lt c
  have h : (c.toIdx + 144) % 144 = c.toIdx := by omega
  rw [h, ofIdx_toIdx]

/-- C7: `Colors::next` is a total successor function forming a single cycle:
from any entry, 144 applications return to it, no positive number of
applications below 144 does, and every entry is reached within 144 steps. -/
theorem next_single_cycle : ∀ c : Colors,
    Colors.next^[144] c = c ∧
    (∀ k : Nat, 0 < k → k < 144 → Colors.next^[k] c ≠ c) ∧
    (∀ d : Colors, ∃ k : Nat, k < 144 ∧ Colors.next^[k] c = d) := by
  intro c
  have hlt := toIdx_lt c
  refine ⟨?_, ?_, ?_⟩
  · rw [iterate_next]
    have h : (c.toIdx + 144) % 144 = c.toIdx := by omega
    rw [h, ofIdx_toIdx]
  · intro k hk0 hk1 hkc
    rw [iterate_next] at hkc
    have h2 := congrArg Colors.toIdx hkc
    rw [toIdx_ofIdx_nat ((c.toIdx + k) % 144) (Nat.mod_lt _ (by norm_num))] at h2
    omega
  · intro d
    have hd := toIdx_lt d
    refine ⟨(d.toIdx + 144 - c.toIdx) % 144, Nat.mod_lt _ (by norm_num), ?_⟩
    rw [iterate_next]
    have h : (c.toIdx + (d.toIdx + 144 - c.toIdx) % 144) % 144 = d.toIdx := by omega
    rw [h, ofIdx_toIdx]

/-- Witness for C7 at concrete inputs: the cycle facts instantiated at
`Red` (with `k = 3` and target `Blue`). -/
theorem next_single_cycle_witness :
    Colors.next^[144] Colors.Red = Colors.Red ∧
    Colors.next^[3] Colors.Red ≠ Colors.Red ∧
    ∃ k : Nat, k < 144 ∧ Colors.next^[k] Colors.Red = Colors.Blue :=
  ⟨(next_single_cycle Colors.Red).1,
   (next_single_cycle Colors.Red).2.1 3 (by decide) (by decide),
   (next_single_cycle Colors.Red).2.2 Colors.Blue⟩

/-- C1 counterexample: the iteration started at `AntiqueWhite` stabilizes at
143 entries (fuel 288 is far beyond exhaustion), not at the full entry
count 144: the iterator stops before `AliceBlue`, the canonical first
entry, not before revisiting its own starting entry. -/
theorem starting_with_not_full_cycle :
    ((ColorsIter.starting_with Colors.AntiqueWhite).collect 288).length = 143 := by
  decide

/-- C1 (amended): for any fuel of at least 144, `ColorsIter::starting_with c`
yields exactly the entries from `c` onward in the fixed `next()` order up
to `YellowGreen` — the suffix of the order starting at `c` — stopping
immediately before `AliceBlue` (the iterator's `FIRST`) rather than before
revisiting `c`; its length is 144 minus the position of `c`, which equals
the full entry count only when `c` is `AliceBlue`. -/
theorem starting_with_yields_tail : ∀ (c : Colors) (n : Nat), 144 ≤ n →
    (ColorsIter.starting_with c).collect n = alphaList.drop c.toIdx ∧
    ((ColorsIter.starting_with c).collect n).length = 144 - c.toIdx := by
  intro c n h
  have h1 : (ColorsIter.starting_with c).collect n = alphaList.drop c.toIdx :=
    collect_eq_drop n c (by have := toIdx_lt c; omega)
  refine ⟨h1, ?_⟩
  rw [h1, List.length_drop, alphaList_length]

/-- Witness for C1 (amended) at `AliceBlue` with fuel 144. -/
theorem starting_with_yields_tail_witness :
    (ColorsIter.starting_with Colors.AliceBlue).collect 144 =
      alphaList.drop (Colors.toIdx Colors.AliceBlue) ∧
    ((ColorsIter.starting_with Colors.AliceBlue).collect 144).length =
      144 - Colors.toIdx Colors.AliceBlue :=
  starting_with_yields_tail Colors.AliceBlue 144 (by decide)


theorem charToDigit16_spec {c : Char} {v : Nat} (h : charToDigit16 c = some v) :
    v < 16 ∧ c.toNat < 128 ∧ charSize c = 1 ∧ c ≠ '#' ∧ c ≠ '+' := by
  unfold charToDigit16 at h
  have hsharp : ('#').toNat = 35 := rfl
  have hplus : ('+').toNat = 43 := rfl
  split_ifs at h with h1 h2 h3 <;>
    injection h with hv <;>
    refine ⟨by omega, by omega, by unfold charSize; rw [if_pos (by omega)], ?_, ?_⟩ <;>
    intro he <;> subst he <;> omega

theorem charSize_pos (c : Char) : 1 ≤ charSize c := by
  unfold charSize
  split_ifs <;> omega

theorem utf8Len_nil : utf8Len [] = 0 := rfl

theorem utf8Len_cons (c : Char) (cs : List Char) :
    utf8Len (c :: cs) = charSize c + utf8Len cs := by
  simp [utf8Len]

theorem utf8Len_append (xs ys : List Char) :
    utf8Len (xs ++ ys) = utf8Len xs + utf8Len ys := by
  simp [utf8Len]

theorem utf8Len_eq_zero {cs : List Char} (h : utf8Len cs = 0) : cs = [] := by
  cases cs with
  | nil => rfl
  | cons c rest =>
    rw [utf8Len_cons] at h
    have := charSize_pos c
    omega

theorem utf8Len_ascii {cs : List Char} (h : ∀ c ∈ cs, c.toNat < 128) :
    utf8Len cs = cs.length := by
  induction cs with
  | nil => rfl
  | cons c rest ih =>
    rw [utf8Len_cons, ih (fun x hx => h x (List.mem_cons_of_mem c hx))]
    have hc : charSize c = 1 := by
      unfold charSize
      rw [if_pos (h c (List.mem_cons_self c rest))]
    rw [hc, List.length_cons]
    omega

theorem mem_stripHash {c : Char} {cs : List Char} (h : c ∈ stripHash cs) : c ∈ cs := by
  cases cs with
  | nil => simp [stripHash] at h
  | cons a rest =>
    simp only [stripHash] at h
    split_ifs at h with ha
    · exact List.mem_cons_of_mem a h
    · exact h

theorem radixGo_ok_digits {l : List Char} {acc v : Nat} (h : radixGo l acc = .ok v) :
    ∀ c ∈ l, ∃ d, charToDigit16 c = some d := by
  induction l generalizing acc with
  | nil => intro c hc; simp at hc
  | cons c rest ih =>
    intro x hx
    rcases hd : charToDigit16 c with _ | d
    · simp [radixGo, hd] at h
    · simp only [radixGo, hd] at h
      by_cases hle : 16 * acc + d ≤ 255
      · rw [if_pos hle] at h
        rcases List.mem_cons.mp hx with hxc | hxr
        · exact ⟨d, hxc ▸ hd⟩
        · exact ih h x hxr
      · rw [if_neg hle] at h
        exact absurd h (by simp)

theorem fromStrRadix_ok_ascii {l : List Char} {v : Nat} (h : fromStrRadixU8 l = .ok v) :
    ∀ c ∈ l, c.toNat < 128 := by
  intro x hx
  cases l with
  | nil => simp at hx
  | cons c rest =>
    simp only [fromStrRadixU8] at h
    by_cases hplus : c = '+'
    · rw [if_pos hplus] at h
      by_cases hnil : rest = []
      · rw [if_pos hnil] at h
        exact absurd h (by simp)
      · rw [if_neg hnil] at h
        rcases List.mem_cons.mp hx with hxc | hxr
        · subst hxc; rw [hplus]; decide
        · obtain ⟨d, hd⟩ := radixGo_ok_digits h x hxr
          exact (charToDigit16_spec hd).2.1
    · rw [if_neg hplus] at h
      obtain ⟨d, hd⟩ := radixGo_ok_digits h x hx
      exact (charToDigit16_spec hd).2.1

theorem convert_pair {c1 c2 : Char} {v1 v2 : Nat}
    (h1 : charToDigit16 c1 = some v1) (h2 : charToDigit16 c2 = some v2) :
    convert [c1, c2] = .ok (16 * v1 + v2) := by
  obtain ⟨hv1, -, -, -, hp1⟩ := charToDigit16_spec h1
  obtain ⟨hv2, -, -, -, -⟩ := charToDigit16_spec h2
  simp only [convert, fromStrRadixU8]
  rw [if_neg hp1]
  simp only [radixGo, h1]
  rw [if_pos (show 16 * 0 + v1 ≤ 255 by omega)]
  simp only [radixGo, h2]
  rw [if_pos (show 16 * (16 * 0 + v1) + v2 ≤ 255 by omega)]
  simp only [radixGo]
  norm_num

theorem hexChar_lower {c : Char} {v : Nat} (h : charToDigit16 c = some v) :
    hexChar v = lowerHex c := by
  unfold charToDigit16 at h
  split_ifs at h with h1 h2 h3 <;> injection h with hv <;> subst hv <;> unfold hexChar lowerHex
  · rw [if_pos (by omega), if_neg (by omega), show 48 + (c.toNat - 48) = c.toNat by omega,
      Char.ofNat_toNat]
  · rw [if_neg (by omega), if_neg (by omega),
      show 97 + (c.toNat - 97 + 10 - 10) = c.toNat by omega, Char.ofNat_toNat]
  · rw [if_neg (by omega), if_pos (by omega)]
    exact congrArg Char.ofNat (by omega)

theorem byteHex_pair {v1 v2 : Nat} (h2 : v2 < 16) :
    byteHex (16 * v1 + v2) = [hexChar v1, hexChar v2] := by
  unfold byteHex
  rw [show (16 * v1 + v2) / 16 = v1 by omega, show (16 * v1 + v2) % 16 = v2 by omega]


theorem readChannel_false_cons (a : Char) (l : List Char) :
    readChannel false (a :: l) =
      match convert [a, a] with
      | .error e => .error e
      | .ok v => .ok (v, l) := rfl

theorem readChannel_true_cons (a b : Char) (l : List Char) :
    readChannel true (a :: b :: l) =
      match convert [a, b] with
      | .error e => .error e
      | .ok v => .ok (v, l) := rfl

theorem convert_cases (l : List Char) :
    (∃ v, convert l = .ok v) ∨ ∃ k, convert l = .error (.ParseIntError k) := by
  rcases hf : fromStrRadixU8 l with k | v
  · exact .inr ⟨k, by simp [convert, hf]⟩
  · exact .inl ⟨v, by simp [convert, hf]⟩

theorem readChannel_cases (b : Bool) (cs : List Char) :
    (∃ v rest, readChannel b cs = .ok (v, rest)) ∨
    (∃ k, readChannel b cs = .error (.ParseIntError k)) ∨
    (∃ m, readChannel b cs = .error (.Unknown m)) := by
  cases b
  · cases cs with
    | nil => exact .inr (.inr ⟨_, rfl⟩)
    | cons a l =>
      rcases convert_cases [a, a] with ⟨v, hv⟩ | ⟨k, hk⟩
      · exact .inl ⟨v, l, by rw [readChannel_false_cons, hv]⟩
      · exact .inr (.inl ⟨k, by rw [readChannel_false_cons, hk]⟩)
  · rcases cs with _ | ⟨a, _ | ⟨b2, l⟩⟩
    · exact .inr (.inr ⟨_, rfl⟩)
    · exact .inr (.inr ⟨_, rfl⟩)
    · rcases convert_cases [a, b2] with ⟨v, hv⟩ | ⟨k, hk⟩
      · exact .inl ⟨v, l, by rw [readChannel_true_cons, hv]⟩
      · exact .inr (.inl ⟨k, by rw [readChannel_true_cons, hk]⟩)

theorem fromHex_lenOk_cases {cs : List Char}
    (h : utf8Len (stripHash cs) = 3 ∨ utf8Len (stripHash cs) = 6) :
    (∃ col, from_hex cs = .ok col) ∨
    (∃ k, from_hex cs = .error (.ParseIntError k)) ∨
    (∃ m, from_hex cs = .error (.Unknown m)) := by
  simp only [from_hex]
  rw [if_pos h]
  rcases readChannel_cases (decide (utf8Len (stripHash cs) = 6)) (stripHash cs) with
    ⟨v, rest, h1⟩ | ⟨k, h1⟩ | ⟨m, h1⟩
  · simp only [h1]
    rcases readChannel_cases (decide (utf8Len (stripHash cs) = 6)) rest with
      ⟨v2, rest2, h2⟩ | ⟨k, h2⟩ | ⟨m, h2⟩
    · simp only [h2]
      rcases readChannel_cases (decide (utf8Len (stripHash cs) = 6)) rest2 with
        ⟨v3, rest3, h3⟩ | ⟨k, h3⟩ | ⟨m, h3⟩
      · simp only [h3]; exact .inl ⟨⟨v, v2, v3⟩, rfl⟩
      · simp only [h3]; exact .inr (.inl ⟨k, rfl⟩)
      · simp only [h3]; exact .inr (.inr ⟨m, rfl⟩)
    · simp only [h2]; exact .inr (.inl ⟨k, rfl⟩)
    · simp only [h2]; exact .inr (.inr ⟨m, rfl⟩)
  · simp only [h1]; exact .inr (.inl ⟨k, rfl⟩)
  · simp only [h1]; exact .inr (.inr ⟨m, rfl⟩)

theorem fromHex_lenBad {cs : List Char}
    (h3 : utf8Len (stripHash cs) ≠ 3) (h6 : utf8Len (stripHash cs) ≠ 6) :
    from_hex cs = .error .WrongLength := by
  simp only [from_hex]
  rw [if_neg (by tauto)]

theorem from_hex3 {cs : List Char} {c1 c2 c3 : Char}
    (h : stripHash cs = [c1, c2, c3]) (hu : utf8Len [c1, c2, c3] = 3) :
    from_hex cs =
      (match convert [c1, c1] with
       | .error e => .error e
       | .ok r =>
         match convert [c2, c2] with
         | .error e => .error e
         | .ok g =>
           match convert [c3, c3] with
           | .error e => .error e
           | .ok b => .ok ⟨r, g, b⟩) := by
  have hs3 : utf8Len (stripHash cs) = 3 := by rw [h]; exact hu
  have hd : decide (utf8Len (stripHash cs) = 6) = false := by rw [hs3]; rfl
  simp only [from_hex]
  rw [if_pos (Or.inl hs3)]
  rw [hd]
  simp only [h]
  rw [readChannel_false_cons c1 [c2, c3]]
  rcases hc1 : convert [c1, c1] with e | r
  · simp [hc1]
  · simp only [hc1]
    rw [readChannel_false_cons c2 [c3]]
    rcases hc2 : convert [c2, c2] with e | g
    · simp [hc2]
    · simp only [hc2]
      rw [readChannel_false_cons c3 []]
      rcases hc3 : convert [c3, c3] with e | b
      · simp [hc3]
      · simp [hc3]

theorem from_hex6 {cs : List Char} {c1 c2 c3 c4 c5 c6 : Char}
    (h : stripHash cs = [c1, c2, c3, c4, c5, c6])
    (hu : utf8Len [c1, c2, c3, c4, c5, c6] = 6) :
    from_hex cs =
      (match convert [c1, c2] with
       | .error e => .error e
       | .ok r =>
         match convert [c3, c4] with
         | .error e => .error e
         | .ok g =>
           match convert [c5, c6] with
           | .error e => .error e
           | .ok b => .ok ⟨r, g, b⟩) := by
  have hs6 : utf8Len (stripHash cs) = 6 := by rw [h]; exact hu
  have hd : decide (utf8Len (stripHash cs) = 6) = true := by rw [hs6]; rfl
  simp only [from_hex]
  rw [if_pos (Or.inr hs6)]
  rw [hd]
  simp only [h]
  rw [readChannel_true_cons c1 c2 [c3, c4, c5, c6]]
  rcases hc1 : convert [c1, c2] with e | r
  · simp [hc1]
  · simp only [hc1]
    rw [readChannel_true_cons c3 c4 [c5, c6]]
    rcases hc2 : convert [c3, c4] with e | g
    · simp [hc2]
    · simp only [hc2]
      rw [readChannel_true_cons c5 c6 []]
      rcases hc3 : convert [c5, c6] with e | b
      · simp [hc3]
      · simp [hc3]


theorem convert_ok_ascii {l : List Char} {v : Nat} (h : convert l = .ok v) :
    ∀ c ∈ l, c.toNat < 128 := by
  rcases hf : fromStrRadixU8 l with k | w
  · simp [convert, hf] at h
  · exact fromStrRadix_ok_ascii hf

theorem readChannel_ok_ascii {b : Bool} {cs : List Char} {v : Nat} {rest : List Char}
    (h : readChannel b cs = .ok (v, rest)) :
    ∃ consumed, cs = consumed ++ rest ∧ (∀ c ∈ consumed, c.toNat < 128) ∧
      consumed.length = (if b then 2 else 1) := by
  cases b
  · cases cs with
    | nil => exact absurd h (by simp [readChannel])
    | cons a l =>
      rw [readChannel_false_cons] at h
      rcases hc : convert [a, a] with e | w
      · rw [hc] at h; simp at h
      · rw [hc] at h
        simp only [Except.ok.injEq, Prod.mk.injEq] at h
        refine ⟨[a], by simp [h.2], ?_, rfl⟩
        intro x hx
        have hxa : x = a := by simpa using hx
        exact hxa ▸ convert_ok_ascii hc a (by simp)
  · rcases cs with _ | ⟨a, _ | ⟨a2, l⟩⟩
    · exact absurd h (by simp [readChannel])
    · exact absurd h (by simp [readChannel])
    · rw [readChannel_true_cons] at h
      rcases hc : convert [a, a2] with e | w
      · rw [hc] at h; simp at h
      · rw [hc] at h
        simp only [Except.ok.injEq, Prod.mk.injEq] at h
        refine ⟨[a, a2], by simp [h.2], ?_, rfl⟩
        intro x hx
        rcases by simpa using hx with hx1 | hx2
        · exact hx1 ▸ convert_ok_ascii hc a (by simp)
        · exact hx2 ▸ convert_ok_ascii hc a2 (by simp)

theorem ascii_stripHash_lift {cs : List Char}
    (h : ∀ c ∈ stripHash cs, c.toNat < 128) : ∀ c ∈ cs, c.toNat < 128 := by
  cases cs with
  | nil => intro c hc; simp at hc
  | cons a rest =>
    intro x hx
    by_cases ha : a = '#'
    · have hs : stripHash (a :: rest) = rest := by simp [stripHash, ha]
      rcases List.mem_cons.mp hx with hxa | hxr
      · subst hxa; rw [ha]; decide
      · exact h x (by rw [hs]; exact hxr)
    · have hs : stripHash (a :: rest) = a :: rest := by simp [stripHash, ha]
      exact h x (by rw [hs]; exact hx)

theorem from_hex_ok_ascii {cs : List Char} {col : Color} (h : from_hex cs = .ok col) :
    ∀ c ∈ cs, c.toNat < 128 := by
  by_cases hlen : utf8Len (stripHash cs) = 3 ∨ utf8Len (stripHash cs) = 6
  case neg =>
    rw [fromHex_lenBad (fun h3 => hlen (.inl h3)) (fun h6 => hlen (.inr h6))] at h
    simp at h
  case pos =>
  simp only [from_hex] at h
  rw [if_pos hlen] at h
  rcases readChannel_cases (decide (utf8Len (stripHash cs) = 6)) (stripHash cs) with
    ⟨v1, r1, h1⟩ | ⟨k, h1⟩ | ⟨m, h1⟩
  case inr.inl => rw [h1] at h; simp at h
  case inr.inr => rw [h1] at h; simp at h
  case inl =>
  simp only [h1] at h
  rcases readChannel_cases (decide (utf8Len (stripHash cs) = 6)) r1 with
    ⟨v2, r2, h2⟩ | ⟨k, h2⟩ | ⟨m, h2⟩
  case inr.inl => rw [h2] at h; simp at h
  case inr.inr => rw [h2] at h; simp at h
  case inl =>
  simp only [h2] at h
  rcases readChannel_cases (decide (utf8Len (stripHash cs) = 6)) r2 with
    ⟨v3, r3, h3⟩ | ⟨k, h3⟩ | ⟨m, h3⟩
  case inr.inl => rw [h3] at h; simp at h
  case inr.inr => rw [h3] at h; simp at h
  case inl =>
  obtain ⟨A, hA, hAa, hAl⟩ := readChannel_ok_ascii h1
  obtain ⟨B, hB, hBa, hBl⟩ := readChannel_ok_ascii h2
  obtain ⟨C, hC, hCa, hCl⟩ := readChannel_ok_ascii h3
  have hstrip : stripHash cs = A ++ (B ++ (C ++ r3)) := by rw [hA, hB, hC]
  have hlA : utf8Len A = A.length := utf8Len_ascii hAa
  have hlB : utf8Len B = B.length := utf8Len_ascii hBa
  have hlC : utf8Len C = C.length := utf8Len_ascii hCa
  have hsum : utf8Len (stripHash cs) =
      A.length + B.length + C.length + utf8Len r3 := by
    rw [hstrip, utf8Len_append, utf8Len_append, utf8Len_append, hlA, hlB, hlC]
    omega
  have hr3 : r3 = [] := by
    apply utf8Len_eq_zero
    by_cases h6 : utf8Len (stripHash cs) = 6
    · have hb : decide (utf8Len (stripHash cs) = 6) = true := by rw [h6]; rfl
      rw [hb] at hAl hBl hCl
      simp at hAl hBl hCl
      omega
    · have h3 : utf8Len (stripHash cs) = 3 := by tauto
      have hb : decide (utf8Len (stripHash cs) = 6) = false := by
        simpa using h6
      rw [hb] at hAl hBl hCl
      simp at hAl hBl hCl
      omega
  apply ascii_stripHash_lift
  intro c hc
  rw [hstrip, hr3] at hc
  simp only [List.append_nil, List.mem_append] at hc
  rcases hc with hc | hc | hc
  · exact hAa c hc
  · exact hBa c hc
  · exact hCa c hc


theorem list_len_three {α : Type} : ∀ (l : List α), l.length = 3 →
    ∃ a b c, l = [a, b, c]
| [a, b, c], _ => ⟨a, b, c, rfl⟩
| [], h => by simp at h
| [a], h => by simp at h
| [a, b], h => by simp at h
| a :: b :: c :: d :: t, h => by
  simp only [List.length_cons] at h
  omega

theorem list_len_six {α : Type} : ∀ (l : List α), l.length = 6 →
    ∃ a b c d e f, l = [a, b, c, d, e, f]
| [a, b, c, d, e, f], _ => ⟨a, b, c, d, e, f, rfl⟩
| [], h => by simp at h
| [a], h => by simp at h
| [a, b], h => by simp at h
| [a, b, c], h => by simp at h
| [a, b, c, d], h => by simp at h
| [a, b, c, d, e], h => by simp at h
| a :: b :: c :: d :: e :: f :: g :: t, h => by
  simp only [List.length_cons] at h
  omega

/-- C6: `Color::from_hex` returns `WrongLength` exactly when the byte length
of the input after stripping an optional leading `'#'` is neither 3 nor 6
(for digit inputs, which are ASCII, byte count and digit count agree); in
particular it never returns `WrongLength` when that length is 3 or 6. -/
theorem from_hex_wrongLength_iff : ∀ cs : List Char,
    from_hex cs = .error .WrongLength ↔
      (utf8Len (stripHash cs) ≠ 3 ∧ utf8Len (stripHash cs) ≠ 6) := by
  intro cs
  constructor
  · intro hw
    by_cases hlen : utf8Len (stripHash cs) = 3 ∨ utf8Len (stripHash cs) = 6
    · rcases fromHex_lenOk_cases hlen with ⟨col, hc⟩ | ⟨k, hc⟩ | ⟨m, hc⟩ <;>
        rw [hc] at hw <;> simp at hw
    · exact ⟨fun h3 => hlen (.inl h3), fun h6 => hlen (.inr h6)⟩
  · rintro ⟨h3, h6⟩
    exact fromHex_lenBad h3 h6

/-- C10: classification of every `Color::from_hex` outcome — the result is
`Ok`, `WrongLength`, `ParseIntError`, or `Unknown`; the `BadChars` variant
is never produced by the parser. -/
theorem from_hex_never_badChars : ∀ cs : List Char,
    (∃ col, from_hex cs = .ok col) ∨
    from_hex cs = .error .WrongLength ∨
    (∃ k, from_hex cs = .error (.ParseIntError k)) ∨
    (∃ m, from_hex cs = .error (.Unknown m)) := by
  intro cs
  by_cases hlen : utf8Len (stripHash cs) = 3 ∨ utf8Len (stripHash cs) = 6
  · rcases fromHex_lenOk_cases hlen with h | h | h
    · exact .inl h
    · exact .inr (.inr (.inl h))
    · exact .inr (.inr (.inr h))
  · exact .inr (.inl
      (fromHex_lenBad (fun h3 => hlen (.inl h3)) (fun h6 => hlen (.inr h6))))

/-- C5 counterexample: on the input `"aaaaé"` (4 ASCII chars plus a 2-byte
char: byte length 6, 5 chars) `Color::from_hex` exhausts the character
iterator inside the third channel and returns `Unknown`, so `Unknown` is
reachable. -/
theorem from_hex_unknown_reachable :
    from_hex ['a', 'a', 'a', 'a', 'é'] =
      .error (.Unknown "Unexpected end of string!") := by
  rfl

/-- C5 (amended): for every ASCII input — in particular every input the hex
grammar admits — `Color::from_hex` never returns `Unknown`: the outcome is
`Ok`, `WrongLength`, or `ParseIntError`. The `Unknown` fallback is only
reachable on non-ASCII input, where the byte-length check can pass with
fewer characters than channels require. -/
theorem from_hex_ascii_no_unknown : ∀ cs : List Char,
    (∀ c ∈ cs, c.toNat < 128) →
    (∃ col, from_hex cs = .ok col) ∨
    from_hex cs = .error .WrongLength ∨
    (∃ k, from_hex cs = .error (.ParseIntError k)) := by
  intro cs hascii
  by_cases hlen : utf8Len (stripHash cs) = 3 ∨ utf8Len (stripHash cs) = 6
  case neg =>
    exact .inr (.inl
      (fromHex_lenBad (fun h3 => hlen (.inl h3)) (fun h6 => hlen (.inr h6))))
  case pos =>
  have hsascii : ∀ c ∈ stripHash cs, c.toNat < 128 :=
    fun c hc => hascii c (mem_stripHash hc)
  have hslen : utf8Len (stripHash cs) = (stripHash cs).length := utf8Len_ascii hsascii
  rcases hlen with h3 | h6
  · obtain ⟨c1, c2, c3, hs⟩ := list_len_three (stripHash cs) (by omega)
    have hu : utf8Len [c1, c2, c3] = 3 := by rw [← hs]; exact h3
    rw [from_hex3 hs hu]
    rcases convert_cases [c1, c1] with ⟨v1, hv1⟩ | ⟨k1, hk1⟩
    · simp only [hv1]
      rcases convert_cases [c2, c2] with ⟨v2, hv2⟩ | ⟨k2, hk2⟩
      · simp only [hv2]
        rcases convert_cases [c3, c3] with ⟨v3, hv3⟩ | ⟨k3, hk3⟩
        · simp only [hv3]; exact .inl ⟨⟨v1, v2, v3⟩, rfl⟩
        · simp only [hk3]; exact .inr (.inr ⟨k3, rfl⟩)
      · simp only [hk2]; exact .inr (.inr ⟨k2, rfl⟩)
    · simp only [hk1]; exact .inr (.inr ⟨k1, rfl⟩)
  · obtain ⟨c1, c2, c3, c4, c5, c6, hs⟩ := list_len_six (stripHash cs) (by omega)
    have hu : utf8Len [c1, c2, c3, c4, c5, c6] = 6 := by rw [← hs]; exact h6
    rw [from_hex6 hs hu]
    rcases convert_cases [c1, c2] with ⟨v1, hv1⟩ | ⟨k1, hk1⟩
    · simp only [hv1]
      rcases convert_cases [c3, c4] with ⟨v2, hv2⟩ | ⟨k2, hk2⟩
      · simp only [hv2]
        rcases convert_cases [c5, c6] with ⟨v3, hv3⟩ | ⟨k3, hk3⟩
        · simp only [hv3]; exact .inl ⟨⟨v1, v2, v3⟩, rfl⟩
        · simp only [hk3]; exact .inr (.inr ⟨k3, rfl⟩)
      · simp only [hk2]; exact .inr (.inr ⟨k2, rfl⟩)
    · simp only [hk1]; exact .inr (.inr ⟨k1, rfl⟩)

/-- Witness for C5 (amended) at the ASCII input `"ggg"`: it hits the
`ParseIntError` branch (the disjunction holds). -/
theorem from_hex_ascii_no_unknown_witness :
    (∃ col, from_hex ['g', 'g', 'g'] = .ok col) ∨
    from_hex ['g', 'g', 'g'] = .error .WrongLength ∨
    (∃ k, from_hex ['g', 'g', 'g'] = .error (.ParseIntError k)) :=
  from_hex_ascii_no_unknown ['g', 'g', 'g'] (by decide)

/-- C9: if the input contains a non-ASCII character yet its byte length
after stripping an optional `'#'` is 3 or 6 (the code measures bytes, not
characters), `from_hex` passes the length check and fails with an error
other than `WrongLength`: a `ParseIntError` for a non-hex group, or
`Unknown` when the character iterator runs out early; it never succeeds
and never panics (the embedding is total). -/
theorem from_hex_nonascii_error : ∀ cs : List Char,
    (∃ c ∈ cs, 128 ≤ c.toNat) →
    (utf8Len (stripHash cs) = 3 ∨ utf8Len (stripHash cs) = 6) →
    (∃ k, from_hex cs = .error (.ParseIntError k)) ∨
    (∃ m, from_hex cs = .error (.Unknown m)) := by
  rintro cs ⟨cbad, hmem, hbad⟩ hlen
  rcases fromHex_lenOk_cases hlen with ⟨col, hc⟩ | h | h
  · exfalso
    have := from_hex_ok_ascii hc cbad hmem
    omega
  · exact .inl h
  · exact .inr h

/-- Witness for C9 at the concrete input `"aaaaé"` (stripped byte length 6,
contains the non-ASCII `'é'`). -/
theorem from_hex_nonascii_error_witness :
    (∃ k, from_hex ['a', 'a', 'a', 'a', 'é'] = .error (.ParseIntError k)) ∨
    (∃ m, from_hex ['a', 'a', 'a', 'a', 'é'] = .error (.Unknown m)) :=
  from_hex_nonascii_error ['a', 'a', 'a', 'a', 'é']
    ⟨'é', by decide, by decide⟩ (by decide)


/-- C3: round-trip law. For every string consisting of an optional leading
`'#'` followed by exactly 6 hexadecimal digits (any case), `from_hex`
succeeds and `as_hex` of the result is `'#'` followed by those 6 digits
lowercased (zero-padded two digits per channel by construction). -/
theorem from_hex_as_hex_roundtrip : ∀ (ds : List Char) (pre : Bool),
    ds.length = 6 → (∀ c ∈ ds, (charToDigit16 c).isSome = true) →
    ∃ col, from_hex ((if pre then ['#'] else []) ++ ds) = .ok col ∧
      as_hex col = '#' :: ds.map lowerHex := by
  intro ds pre hlen hhex
  obtain ⟨d1, d2, d3, d4, d5, d6, hds⟩ := list_len_six ds hlen
  subst hds
  obtain ⟨v1, h1⟩ := Option.isSome_iff_exists.mp (hhex d1 (by simp))
  obtain ⟨v2, h2⟩ := Option.isSome_iff_exists.mp (hhex d2 (by simp))
  obtain ⟨v3, h3⟩ := Option.isSome_iff_exists.mp (hhex d3 (by simp))
  obtain ⟨v4, h4⟩ := Option.isSome_iff_exists.mp (hhex d4 (by simp))
  obtain ⟨v5, h5⟩ := Option.isSome_iff_exists.mp (hhex d5 (by simp))
  obtain ⟨v6, h6⟩ := Option.isSome_iff_exists.mp (hhex d6 (by simp))
  have hu : utf8Len [d1, d2, d3, d4, d5, d6] = 6 := by
    rw [utf8Len_cons, utf8Len_cons, utf8Len_cons, utf8Len_cons, utf8Len_cons,
      utf8Len_cons, utf8Len_nil, (charToDigit16_spec h1).2.2.1,
      (charToDigit16_spec h2).2.2.1, (charToDigit16_spec h3).2.2.1,
      (charToDigit16_spec h4).2.2.1, (charToDigit16_spec h5).2.2.1,
      (charToDigit16_spec h6).2.2.1]
  have hstrip : stripHash ((if pre then ['#'] else []) ++ [d1, d2, d3, d4, d5, d6]) =
      [d1, d2, d3, d4, d5, d6] := by
    cases pre
    · simp [stripHash, (charToDigit16_spec h1).2.2.2.1]
    · simp [stripHash]
  rw [from_hex6 hstrip hu, convert_pair h1 h2, convert_pair h3 h4, convert_pair h5 h6]
  refine ⟨⟨16 * v1 + v2, 16 * v3 + v4, 16 * v5 + v6⟩, rfl, ?_⟩
  simp only [as_hex]
  rw [byteHex_pair (charToDigit16_spec h2).1, byteHex_pair (charToDigit16_spec h4).1,
    byteHex_pair (charToDigit16_spec h6).1, hexChar_lower h1, hexChar_lower h2,
    hexChar_lower h3, hexChar_lower h4, hexChar_lower h5, hexChar_lower h6]
  simp

/-- Witness for C3 at the concrete mixed-case input `"#a0F1b2"`. -/
theorem from_hex_as_hex_roundtrip_witness :
    ∃ col, from_hex ((if true then ['#'] else []) ++ ['a', '0', 'F', '1', 'b', '2']) =
        .ok col ∧
      as_hex col = '#' :: ['a', '0', 'F', '1', 'b', '2'].map lowerHex :=
  from_hex_as_hex_roundtrip ['a', '0', 'F', '1', 'b', '2'] true (by decide) (by decide)

/-- C8: expansion law. A 3-hex-digit input parses to the same color as the
6-digit input obtained by duplicating each digit in place: both produce the
channels `(17·v(a), 17·v(b), 17·v(c))`. -/
theorem from_hex_expand : ∀ (a b c : Char) (va vb vc : Nat),
    charToDigit16 a = some va → charToDigit16 b = some vb →
    charToDigit16 c = some vc →
    from_hex [a, b, c] = .ok ⟨16 * va + va, 16 * vb + vb, 16 * vc + vc⟩ ∧
    from_hex [a, a, b, b, c, c] =
      .ok ⟨16 * va + va, 16 * vb + vb, 16 * vc + vc⟩ := by
  intro a b c va vb vc ha hb hc
  obtain ⟨hva, -, hsa, hna, -⟩ := charToDigit16_spec ha
  obtain ⟨hvb, -, hsb, hnb, -⟩ := charToDigit16_spec hb
  obtain ⟨hvc, -, hsc, hnc, -⟩ := charToDigit16_spec hc
  constructor
  · have hstrip : stripHash [a, b, c] = [a, b, c] := by simp [stripHash, hna]
    have hu : utf8Len [a, b, c] = 3 := by
      rw [utf8Len_cons, utf8Len_cons, utf8Len_cons, utf8Len_nil, hsa, hsb, hsc]
    rw [from_hex3 hstrip hu, convert_pair ha ha, convert_pair hb hb,
      convert_pair hc hc]
  · have hstrip : stripHash [a, a, b, b, c, c] = [a, a, b, b, c, c] := by
      simp [stripHash, hna]
    have hu : utf8Len [a, a, b, b, c, c] = 6 := by
      rw [utf8Len_cons, utf8Len_cons, utf8Len_cons, utf8Len_cons, utf8Len_cons,
        utf8Len_cons, utf8Len_nil, hsa, hsb, hsc]
    rw [from_hex6 hstrip hu, convert_pair ha ha, convert_pair hb hb,
      convert_pair hc hc]

/-- Witness for C8 at the spec's example `"f0a"`: channels
`(0xff, 0x00, 0xaa)`, and the duplicated 6-digit form agrees. -/
theorem from_hex_expand_witness :
    from_hex ['f', '0', 'a'] = .ok ⟨255, 0, 170⟩ ∧
    from_hex ['f', 'f', '0', '0', 'a', 'a'] = .ok ⟨255, 0, 170⟩ := by
  have h := from_hex_expand 'f' '0' 'a' 15 0 10 (by decide) (by decide) (by decide)
  norm_num at h
  exact h


/-- C4: `style_text` contract (with the displayable text in its string form
and the style source already converted to its descriptor, as `style_text`
does internally via `into_ansi()`): empty text is returned unchanged
regardless of style; a default descriptor returns the text unchanged (no
escape bytes added); otherwise the result is exactly the descriptor's
escape sequence, then the text, then the reset escape `ESC[0m`. -/
theorem style_text_contract : ∀ (t : List Char) (a : Ansi),
    (t = [] → style_text t a = []) ∧
    (a.is_default = true → style_text t a = t) ∧
    (t ≠ [] → a.is_default = false →
      style_text t a = (Ansi.display a ++ t) ++ Ansi.reset) := by
  intro t a
  refine ⟨?_, ?_, ?_⟩
  · intro h
    simp [style_text, h]
  · intro h
    by_cases ht : t = []
    · simp [style_text, ht]
    · simp [style_text, ht, h]
  · intro ht hd
    simp [style_text, ht, hd]

/-- Witness for C4: the three branches at concrete inputs — empty text with
a red foreground style, `"x"` with the default descriptor, and `"x"` with
the red style. -/
theorem style_text_contract_witness :
    style_text [] (Ansi.mk (some (Color.mk 255 0 0)) none AnsiFlags.empty) = [] ∧
    style_text ['x'] (Ansi.mk none none AnsiFlags.empty) = ['x'] ∧
    style_text ['x'] (Ansi.mk (some (Color.mk 255 0 0)) none AnsiFlags.empty) =
      (Ansi.display (Ansi.mk (some (Color.mk 255 0 0)) none AnsiFlags.empty) ++
        ['x']) ++ Ansi.reset :=
  ⟨(style_text_contract [] _).1 rfl,
   (style_text_contract ['x'] _).2.1 (by decide),
   (style_text_contract ['x'] _).2.2 (by decide) (by decide)⟩

end Ansirs
